import Mathlib

/-!
Shallow embedding of the credit-card fraud notebooks:
"3_one_class_svm.ipynb" and "5_hdbscan.ipynb".

Rows of the feature matrix are modelled as an abstract type (a list of
rationals in the concrete instances); label vectors are lists of naturals
aligned position-wise with the rows.  External collaborators (the sklearn
estimators, numpy's square root) are taken as function parameters; their
documented behaviour at the call sites (shuffling split, standard scaling,
confusion-matrix unpacking, zero-division defaults of the metric scorers)
is embedded as executable definitions.  Fallible library calls (pandas
KeyError, ValueError on unpacking) are modelled with Option/Except.
-/

namespace FraudEval

/-- Boolean-mask row selection "X[y == l]" of pandas: keep the rows of X
whose aligned label in y equals l, in order. -/
def selectRows {α : Type} (X : List α) (y : List Nat) (l : Nat) : List α :=
  ((X.zip y).filter (fun p => p.2 == l)).map Prod.fst

/-- Row "row" carries label "l" in the source data (X, y): the pair occurs
in the position-wise zip of rows with labels. -/
abbrev hasLabel {α : Type} (X : List α) (y : List Nat) (row : α) (l : Nat) : Prop :=
  (row, l) ∈ X.zip y

/-- Reordering of a list by a list of indices (the seeded shuffle inside
sklearn's train_test_split, abstracted over the concrete permutation that
random_state = 42 produces). -/
def applyPerm {α : Type} (perm : List Nat) (A : List α) : List α :=
  perm.filterMap (fun i => A[i]?)

/-- Model of sklearn.model_selection.train_test_split(A, B, test_size = 0.2,
random_state = 42) at the notebook's call site: both inputs are shuffled by
one shared index permutation "perm", the first ceil(0.2 * n) shuffled entries
form the test part and the rest the train part.  The call raises ValueError
(modelled as none) when the two inputs have different lengths or when the
resulting train set would be empty. -/
def train_test_split {α β : Type} (perm : List Nat) (A : List α) (B : List β) :
    Option (List α × List α × List β × List β) :=
  if A.length = B.length then
    let n := A.length
    let nTest := (n + 4) / 5
    if nTest < n then
      let pA := applyPerm perm A
      let pB := applyPerm perm B
      some (pA.drop nTest, pA.take nTest, pB.drop nTest, pB.take nTest)
    else none
  else none

/-- Embedding of ocsvm_train_test_split (3_one_class_svm.ipynb): X_train is
hard-coded to the rows with label 0 and the anomalous test rows to the rows
with label 1; normal_class is only used to select the label series passed to
train_test_split.  A fifth of the label-0 rows is held out and appended to
the test set. -/
def ocsvm_train_test_split {α : Type} (perm : List Nat) (X : List α) (y : List Nat)
    (normal_class : Nat) : Option (List α × List α × List Nat × List Nat) :=
  let X_train := selectRows X y 0
  let X_test := selectRows X y 1
  let y_test := y.filter (fun l => l == 1)
  match train_test_split perm X_train (y.filter (fun l => l == normal_class)) with
  | some (X_train2, X_test_normal, y_train, y_test_normal) =>
    some (X_train2, X_test ++ X_test_normal, y_train, y_test ++ y_test_normal)
  | none => none

/-- Arithmetic mean of a list of rationals (numpy mean of one column). -/
def qmean (l : List ℚ) : ℚ := l.sum / l.length

/-- Population variance (ddof = 0) of a list of rationals, as numpy computes
it for StandardScaler. -/
def qvariance (l : List ℚ) : ℚ := (l.map (fun x => (x - qmean l) ^ 2)).sum / l.length

/-- Scikit-learn's handling of zero scales in StandardScaler: a zero standard
deviation is replaced by 1 before dividing. -/
def handleZeros (s : ℚ) : ℚ := if s = 0 then 1 else s

/-- Columns of a rectangular row-major matrix: column j collects entry j of
every row (missing entries default to 0, which never happens on the
rectangular feature matrices of the notebooks). -/
def matColumns (X : List (List ℚ)) : List (List ℚ) :=
  (List.range (X.headD []).length).map (fun j => X.map (fun row => row.getD j 0))

/-- StandardScaler().fit(X): per-column mean and scale, the scale being the
square root of the population variance (the external square root is a
parameter) with zero scales replaced by 1. -/
def scaler_fit (sqrt : ℚ → ℚ) (X : List (List ℚ)) : List (ℚ × ℚ) :=
  (matColumns X).map (fun col => (qmean col, handleZeros (sqrt (qvariance col))))

/-- StandardScaler transform with the given fitted per-column parameters:
each entry becomes (x - mean) / scale, column-wise. -/
def scaler_transform (fitted : List (ℚ × ℚ)) (X : List (List ℚ)) : List (List ℚ) :=
  X.map (fun row => (row.zip fitted).map (fun rp => (rp.1 - rp.2.1) / rp.2.2))

/-- Scaled test matrix inside train_oneclass_svm: scaler.transform(X_test)
with the scaler fitted on X_train. -/
def ocsvm_X_test_scaled (sqrt : ℚ → ℚ) (X_train X_test : List (List ℚ)) : List (List ℚ) :=
  scaler_transform (scaler_fit sqrt X_train) X_test

/-- Number of aligned (true, predicted) pairs equal to (a, b). -/
def pairCount (y_true y_pred : List Nat) (a b : Nat) : Nat :=
  ((y_true.zip y_pred).filter (fun q => q.1 == a && q.2 == b)).length

/-- Model of "TN, FP, FN, TP = confusion_matrix(y_test, predictions).ravel()":
sklearn infers the label set as the sorted distinct values occurring in
either argument; the four-way unpacking succeeds only when that set has
exactly two elements, and raises ValueError (none) otherwise, as well as
when the two inputs have different lengths. -/
def confusion_ravel (y_true y_pred : List Nat) : Option (Nat × Nat × Nat × Nat) :=
  if y_true.length = y_pred.length then
    match (y_true ++ y_pred).dedup with
    | [x, y] =>
      let a := min x y
      let b := max x y
      some (pairCount y_true y_pred a a, pairCount y_true y_pred a b,
            pairCount y_true y_pred b a, pairCount y_true y_pred b b)
    | _ => none
  else none

/-- Numpy float division of two confusion counts at the notebook's rate
computations: a zero denominator yields NaN (modelled as none) with a
runtime warning, not an exception; any other denominator yields the exact
quotient. -/
def npDiv (a b : Nat) : Option ℚ := if b = 0 then none else some ((a : ℚ) / (b : ℚ))

/-- sklearn.metrics.precision_score with default zero_division: TP over
predicted positives, coerced to 0 when no positive was predicted. -/
def precision_score (y_true y_pred : List Nat) : ℚ :=
  let tp := pairCount y_true y_pred 1 1
  let predicted_pos := (y_pred.filter (fun l => l == 1)).length
  if predicted_pos = 0 then 0 else (tp : ℚ) / (predicted_pos : ℚ)

/-- sklearn.metrics.recall_score with default zero_division: TP over actual
positives, coerced to 0 when no actual positive exists. -/
def recall_score (y_true y_pred : List Nat) : ℚ :=
  let tp := pairCount y_true y_pred 1 1
  let actual_pos := (y_true.filter (fun l => l == 1)).length
  if actual_pos = 0 then 0 else (tp : ℚ) / (actual_pos : ℚ)

/-- sklearn.metrics.f1_score with default zero_division: 2 TP over
(2 TP + FP + FN), coerced to 0 when that denominator is 0. -/
def f1_score (y_true y_pred : List Nat) : ℚ :=
  let tp := pairCount y_true y_pred 1 1
  let fp := ((y_true.zip y_pred).filter (fun q => !(q.1 == 1) && q.2 == 1)).length
  let fn := ((y_true.zip y_pred).filter (fun q => q.1 == 1 && !(q.2 == 1))).length
  if 2 * tp + fp + fn = 0 then 0 else (2 * tp : ℚ) / ((2 * tp + fp + fn : Nat) : ℚ)

/-- Metrics record assembled by the evaluation block of train_oneclass_svm:
the four logged percentage rates (none models a NaN from a zero-denominator
numpy division) and the three sklearn scores. -/
structure EvalMetrics where
  tpr : Option ℚ
  fpr : Option ℚ
  tnr : Option ℚ
  fnr : Option ℚ
  precisionScore : ℚ
  recallScore : ℚ
  f1 : ℚ
deriving DecidableEq

/-- Evaluation block of train_oneclass_svm (confusion matrix, rates,
precision/recall/F1): none models the ValueError raised when the four-way
ravel unpacking fails. -/
def evaluate_predictions (y_test predictions : List Nat) : Option EvalMetrics :=
  match confusion_ravel y_test predictions with
  | some (TN, FP, FN, TP) =>
    some ⟨(npDiv TP (TP + FN)).map (fun r => r * 100),
          (npDiv FP (FP + TN)).map (fun r => r * 100),
          (npDiv TN (TN + FP)).map (fun r => r * 100),
          (npDiv FN (FN + TP)).map (fun r => r * 100),
          precision_score y_test predictions,
          recall_score y_test predictions,
          f1_score y_test predictions⟩
  | none => none

/-- Configuration values occurring in the notebooks' parameter grids:
strings (kernel names, "scale", "auto"), integers, rationals. -/
inductive Value where
  | s (v : String)
  | i (v : Int)
  | q (v : ℚ)
deriving DecidableEq

/-- A parameters dictionary: insertion-ordered association list from
parameter name to value. -/
abbrev Config := List (String × Value)

/-- Embedding of train_oneclass_svm (3_one_class_svm.ipynb): scale with
parameters fitted on X_train, score the scaled test set with the externally
fitted one-class SVM (a parameter returning the native plus/minus-one
decisions), convert -1 (outlier) to 1 and anything else to 0, then run the
evaluation block against y_test.  The returned record models the metrics the
function logs plus the F1 value it returns. -/
def train_oneclass_svm (sqrt : ℚ → ℚ)
    (svm : Config → List (List ℚ) → List (List ℚ) → List Int)
    (y_test : List Nat) (X_train X_test : List (List ℚ)) (params : Config) :
    Option EvalMetrics :=
  let scaler := scaler_fit sqrt X_train
  let X_train_scaled := scaler_transform scaler X_train
  let X_test_scaled := ocsvm_X_test_scaled sqrt X_train X_test
  let predictions := (svm params X_train_scaled X_test_scaled).map
    (fun v => if v == -1 then 1 else 0)
  evaluate_predictions y_test predictions

/-- itertools.product over the value lists, leftmost list varying slowest. -/
def cartProd {V : Type} (values : List (List V)) : List (List V) :=
  values.foldr (fun vs acc => vs.flatMap (fun v => acc.map (fun c => v :: c))) [[]]

/-- Grid expansion shared by grid_search and cluster_grid_search:
"[dict(zip(keys, combo)) for combo in itertools.product(*values)]", keys in
the order they were supplied. -/
def iterParam {V : Type} (param_grid : List (String × List V)) : List (List (String × V)) :=
  (cartProd (param_grid.map Prod.snd)).map (fun combo => (param_grid.map Prod.fst).zip combo)

/-- Loop body state of grid_search: running best F1 (initialised to 0) and
best parameters (initialised to None), folded over the enumerated
configurations; the per-cell evaluation may raise (Except), and the loop has
no handler, so a raise propagates. -/
def run_grid (eval_fn : Config → Except String ℚ) (iter_param : List Config) :
    Except String (ℚ × Option Config) :=
  iter_param.foldlM
    (fun best p => (eval_fn p).map (fun f1 => if f1 > best.1 then (f1, some p) else best))
    ((0 : ℚ), none)

/-- Embedding of grid_search (3_one_class_svm.ipynb): unpacking the items of
an empty dictionary raises ValueError; otherwise the configurations of
iterParam are evaluated in order and only the best parameters are returned. -/
def grid_search (eval_fn : Config → Except String ℚ)
    (param_grid : List (String × List Value)) : Except String (Option Config) :=
  if param_grid.isEmpty then
    Except.error "ValueError: not enough values to unpack"
  else
    (run_grid eval_fn (iterParam param_grid)).map Prod.snd

/-- Python dictionary assignment d[k] = v on an insertion-ordered
association list: overwrite in place if the key exists, else append. -/
def dictSet (d : Config) (k : String) (v : Value) : Config :=
  if d.any (fun kv => kv.1 == k) then
    d.map (fun kv => if kv.1 == k then (k, v) else kv)
  else d ++ [(k, v)]

/-- Python dictionary lookup d[k] on an association list. -/
def dictGet (d : Config) (k : String) : Option Value :=
  (d.find? (fun kv => kv.1 == k)).map Prod.snd

/-- Embedding of hdbscan_clustering (5_hdbscan.ipynb): the caller's params
dictionary is mutated by the assignment of n_jobs = -1 before the externally
fitted clusterer (a parameter) runs; returns the mutated dictionary together
with the cluster labels, modelling the in-place update plus return value. -/
def hdbscan_clustering (hdbscan_fit : Config → List (List ℚ) → List Int)
    (X : List (List ℚ)) (params : Config) : Config × List Int :=
  let params2 := dictSet params "n_jobs" (Value.i (-1))
  (params2, hdbscan_fit params2 X)

/-- Floor of a rational, computed by flooring integer division. -/
def ratFloor (x : ℚ) : ℤ := Int.fdiv x.num (x.den : ℤ)

/-- Round half to even at the unit, on exact rationals (numpy rounding);
comparisons use the executable rational order. -/
def roundHalfEven (x : ℚ) : ℤ :=
  let f := ratFloor x
  let r := x - (f : ℚ)
  if Rat.blt r (1 / 2) then f
  else if Rat.blt (1 / 2) r then f + 1
  else if f % 2 == 0 then f else f + 1

/-- Rounding to two decimal places, as ".round(2)" in the notebook. -/
def round2 (x : ℚ) : ℚ := ((roundHalfEven (x * 100) : ℤ) : ℚ) / 100

/-- Per-configuration record assembled by analyze_clusters: the counts it
logs (number of distinct cluster ids as nunique reports it, noise rows,
fraud rows, fraud rows inside noise, fraud rows inside clusters, rounded
noise percentage). -/
structure ClusterReport where
  cluster_count : Nat
  noise_count : Nat
  fraud_count : Nat
  fraud_in_noise : Nat
  fraud_in_clusters : Int
  noise_pct : ℚ
deriving DecidableEq

/-- Model of "distribution.loc[-1, 1]" where distribution is the
cluster-by-class cross-tabulation (groupby value_counts unstacked with
fill_value 0): the row index -1 exists only when some row was labelled
noise, the column index 1 only when some row has class 1; if either is
missing the lookup raises KeyError (none), otherwise it returns the filled
count of rows with cluster -1 and class 1. -/
def distribution_loc (labels : List Nat) (cluster_labels : List Int) : Option Nat :=
  if (-1 : Int) ∈ cluster_labels ∧ 1 ∈ labels then
    some (((labels.zip cluster_labels).filter (fun rc => rc.2 == -1 && rc.1 == 1)).length)
  else none

/-- Embedding of analyze_clusters (5_hdbscan.ipynb): assigning the cluster
labels column requires equal lengths; cluster_count is pandas nunique over
all cluster ids (the sentinel -1 included when present); the fraud-in-noise
count comes from the cross-tabulation lookup, whose KeyError aborts the
analysis (none). -/
def analyze_clusters (labels : List Nat) (cluster_labels : List Int) : Option ClusterReport :=
  if labels.length = cluster_labels.length then
    let cluster_count := cluster_labels.dedup.length
    let total_noise_count := (cluster_labels.filter (fun c => c == -1)).length
    let total_fraud_count := (labels.filter (fun l => l == 1)).length
    match distribution_loc labels cluster_labels with
    | some noise_fraud_count =>
      some ⟨cluster_count, total_noise_count, total_fraud_count, noise_fraud_count,
            (total_fraud_count : Int) - (noise_fraud_count : Int),
            round2 (((total_noise_count : ℚ) / (labels.length : ℚ)) * 100)⟩
    | none => none
  else none

/-- Embedding of cluster_grid_search (5_hdbscan.ipynb): same empty-grid
unpacking failure as grid_search; otherwise the enumerated configurations are
clustered (with the n_jobs override mutating each) and analysed in order.
The accumulated pair list models the per-cell log records; the loop has no
exception handler, so a KeyError inside analyze_clusters propagates, aborting
the remaining enumeration. -/
def cluster_grid_search (hdbscan_fit : Config → List (List ℚ) → List Int)
    (X : List (List ℚ)) (param_grid : List (String × List Value)) (labels : List Nat) :
    Except String (List (Config × ClusterReport)) :=
  if param_grid.isEmpty then
    Except.error "ValueError: not enough values to unpack"
  else
    (iterParam param_grid).foldlM (fun recs p =>
      let fitted := hdbscan_clustering hdbscan_fit X p
      match analyze_clusters labels fitted.2 with
      | some r => Except.ok (recs ++ [(fitted.1, r)])
      | none => Except.error "KeyError: -1") []

/-! Helper lemmas about the partitioning functions. -/

theorem filterMap_getElem_range {α : Type} (A : List α) :
    (List.range A.length).filterMap (fun i => A[i]?) = A := by
  induction A with
  | nil => simp
  | cons a A ih =>
    rw [List.length_cons, List.range_succ_eq_map, List.filterMap_cons]
    simp only [List.getElem?_cons_zero]
    rw [List.filterMap_map]
    have hc : ((fun i => (a :: A)[i]?) ∘ Nat.succ) = fun i => A[i]? := by
      funext i
      simp
    rw [hc, ih]

theorem applyPerm_perm {α : Type} {perm : List Nat} {A : List α}
    (h : perm.Perm (List.range A.length)) : (applyPerm perm A).Perm A := by
  have hp := h.filterMap (fun i => A[i]?)
  rw [filterMap_getElem_range] at hp
  exact hp

theorem selectRows_partition {α : Type} (X : List α) (y : List Nat)
    (hlen : X.length = y.length) (hbin : ∀ l ∈ y, l = 0 ∨ l = 1) :
    (selectRows X y 0 ++ selectRows X y 1).Perm X := by
  unfold selectRows
  have hcongr : (X.zip y).filter (fun p => p.2 == 1) =
      (X.zip y).filter (fun p => !(p.2 == 0)) := by
    apply List.filter_congr
    rintro ⟨r, lab⟩ hp
    have hy : lab ∈ y := (List.of_mem_zip hp).2
    rcases hbin lab hy with h0 | h1
    · simp [h0]
    · simp [h1]
  rw [hcongr, ← List.map_append]
  have hperm := (List.filter_append_perm (fun p : α × Nat => p.2 == 0) (X.zip y)).map Prod.fst
  rw [List.map_fst_zip X y (le_of_eq hlen)] at hperm
  exact hperm

theorem train_test_split_some {α β : Type} {perm : List Nat} {A : List α} {B : List β}
    {q : List α × List α × List β × List β}
    (h : train_test_split perm A B = some q) :
    q = ((applyPerm perm A).drop ((A.length + 4) / 5),
         (applyPerm perm A).take ((A.length + 4) / 5),
         (applyPerm perm B).drop ((A.length + 4) / 5),
         (applyPerm perm B).take ((A.length + 4) / 5)) := by
  simp only [train_test_split] at h
  split at h
  · split at h
    · injection h with h
      exact h.symm
    · exact absurd h (by simp)
  · exact absurd h (by simp)

/-- C1: the claim as stated fails on the code.  With y taking exactly the two
values 0 and 1 and normal_label = 1, the split still trains on the label-0
rows: the returned X_train contains row 20, whose label in the source y is 0,
not the requested normal_label 1. -/
theorem ocsvm_split_normal_label_counterexample :
    ocsvm_train_test_split [0, 1] [10, 20, 30, 40] [0, 0, 1, 1] 1 =
      some ([20], [30, 40, 10], [1], [1, 1, 1]) ∧
    20 ∈ [20] ∧ ¬ hasLabel [10, 20, 30, 40] [0, 0, 1, 1] (20 : Nat) 1 := by
  decide

/-- C1 (amended): for normal_label = 0 and binary labels, the split is a true
partition: X_train is drawn from the label-0 rows, every label-1 row lands in
X_test, and X_train together with X_test accounts for every row of X exactly
once.  The permutation abstracts the seeded shuffle of train_test_split. -/
theorem ocsvm_split_partition {α : Type} (perm : List Nat) (X : List α) (y : List Nat)
    (hlen : X.length = y.length) (hbin : ∀ l ∈ y, l = 0 ∨ l = 1)
    (hperm : perm.Perm (List.range (selectRows X y 0).length))
    (Xtr Xte : List α) (ytr yte : List Nat)
    (h : ocsvm_train_test_split perm X y 0 = some (Xtr, Xte, ytr, yte)) :
    Xtr.Subperm (selectRows X y 0) ∧ (selectRows X y 1).Subperm Xte ∧
    (Xtr ++ Xte).Perm X := by
  simp only [ocsvm_train_test_split] at h
  cases htts : train_test_split perm (selectRows X y 0) (y.filter (fun l => l == 0)) with
  | none => rw [htts] at h; simp at h
  | some quad =>
    rw [htts] at h
    obtain ⟨q1, q2, q3, q4⟩ := quad
    simp only [Option.some.injEq, Prod.mk.injEq] at h
    obtain ⟨h1, h2, h3, h4⟩ := h
    have hq := train_test_split_some htts
    simp only [Prod.mk.injEq] at hq
    obtain ⟨e1, e2, e3, e4⟩ := hq
    have hpA : (applyPerm perm (selectRows X y 0)).Perm (selectRows X y 0) :=
      applyPerm_perm hperm
    subst h1 h2 e1 e2
    constructor
    · exact ((List.drop_sublist _ _).subperm).trans hpA.subperm
    · constructor
      · exact (List.sublist_append_left _ _).subperm
      · refine List.Perm.trans ?_ (selectRows_partition X y hlen hbin)
        refine List.Perm.trans (List.Perm.append_left _ List.perm_append_comm) ?_
        rw [← List.append_assoc]
        refine List.Perm.trans (List.Perm.append_right _ List.perm_append_comm) ?_
        rw [List.take_append_drop]
        exact List.Perm.append_right _ hpA

/-- C1 (amended) witness: the partition property at a concrete input with
normal_label 0, binary labels and the shuffle [1, 0]. -/
theorem ocsvm_split_partition_witness :
    List.Subperm [10] (selectRows [10, 20, 30, 40] [0, 0, 1, 1] 0) ∧
    List.Subperm (selectRows [10, 20, 30, 40] [0, 0, 1, 1] 1) [30, 40, 20] ∧
    (([10] ++ [30, 40, 20]) : List Nat).Perm [10, 20, 30, 40] :=
  ocsvm_split_partition [1, 0] [10, 20, 30, 40] [0, 0, 1, 1] rfl (by decide) (by decide)
    [10] [30, 40, 20] [0] [1, 1, 0] (by decide)

/-! Helper lemmas about the cluster analysis. -/

theorem dedup_length_filter_ne (l : List Int) (a : Int) (ha : a ∈ l) :
    l.dedup.length = ((l.filter (fun c => !(c == a))).dedup.length) + 1 := by
  have hfe : (l.filter (fun c => !(c == a))).toFinset = l.toFinset.erase a := by
    rw [List.toFinset_filter, ← Finset.filter_ne']
    apply Finset.filter_congr
    intro x _
    simp
  have hcard := Finset.card_erase_add_one (List.mem_toFinset.mpr ha)
  rw [← List.card_toFinset, ← List.card_toFinset, hfe, hcard]

/-- C3: the claim fails on the code.  A ClusterOutput in which no row carries
the sentinel id -1 makes the cross-tabulation lookup raise KeyError, aborting
the analysis (none) instead of reporting noise_count = 0 and
fraud_in_noise = 0. -/
theorem analyze_clusters_no_noise_counterexample :
    ((([0] : List Int)).filter (fun c => c == -1)).length = 0 ∧
    analyze_clusters [1] [0] = none := by
  decide

/-- C3 (amended): whenever the sentinel id -1 occurs in no row, the
cross-tabulation lookup fails and analyze_clusters aborts with the KeyError
(modelled as none); it never returns a zero-noise report. -/
theorem analyze_clusters_no_noise_aborts (labels : List Nat) (cluster_labels : List Int)
    (h : (-1 : Int) ∉ cluster_labels) :
    analyze_clusters labels cluster_labels = none := by
  unfold analyze_clusters distribution_loc
  split
  · rw [if_neg (fun hc => h hc.1)]
  · rfl

/-- C3 (amended) witness: the abort at a concrete sentinel-free input. -/
theorem analyze_clusters_no_noise_aborts_witness :
    analyze_clusters [0, 1] [2, 3] = none :=
  analyze_clusters_no_noise_aborts [0, 1] [2, 3] (by decide)

/-- C8: the claim fails on the code.  With assignments [-1, 0, 1] there are
two distinct non-sentinel cluster ids, but the reported cluster_count is
pandas nunique over all ids, which also counts the sentinel: 3, not 2. -/
theorem analyze_clusters_count_counterexample :
    (analyze_clusters [1, 0, 0] [-1, 0, 1]).map (fun r => r.cluster_count) = some 3 ∧
    ((([-1, 0, 1] : List Int)).filter (fun c => !(c == -1))).dedup.length = 2 ∧
    (3 : Nat) ≠ 2 := by
  refine ⟨rfl, by decide, by decide⟩

/-- C8 (amended): in every completed analysis the reported cluster_count is
the number of distinct cluster ids including the sentinel: it equals the
count of distinct non-sentinel ids plus one (the sentinel is necessarily
present when the analysis completes), while the sentinel rows are separately
reported through noise_count. -/
theorem analyze_clusters_cluster_count (labels : List Nat) (cluster_labels : List Int)
    (r : ClusterReport) (h : analyze_clusters labels cluster_labels = some r) :
    r.cluster_count = cluster_labels.dedup.length ∧
    r.cluster_count = ((cluster_labels.filter (fun c => !(c == -1))).dedup.length) + 1 ∧
    r.noise_count = (cluster_labels.filter (fun c => c == -1)).length := by
  unfold analyze_clusters at h
  split at h
  · cases hloc : distribution_loc labels cluster_labels with
    | none => rw [hloc] at h; simp at h
    | some k =>
      rw [hloc] at h
      have hmem : (-1 : Int) ∈ cluster_labels := by
        unfold distribution_loc at hloc
        split at hloc
        · next hc => exact hc.1
        · exact absurd hloc (by simp)
      injection h with h
      subst h
      refine ⟨rfl, ?_, rfl⟩
      exact dedup_length_filter_ne cluster_labels (-1) hmem
  · exact absurd h (by simp)

/-- C8 (amended) witness: a completed analysis at a concrete input with one
noise row and one true cluster, where cluster_count is reported as 2. -/
theorem analyze_clusters_cluster_count_witness :
    (2 : Nat) = (([-1, 5] : List Int)).dedup.length ∧
    (2 : Nat) = ((([-1, 5] : List Int)).filter (fun c => !(c == -1))).dedup.length + 1 ∧
    (1 : Nat) = ((([-1, 5] : List Int)).filter (fun c => c == -1)).length := by
  have h := analyze_clusters_cluster_count [1, 0] [-1, 5]
    ⟨2, 1, 1, 1, 0, round2 ((((1 : Nat) : ℚ) / ((2 : Nat) : ℚ)) * 100)⟩ rfl
  exact h

/-! Helper lemmas about dictionary update, for the hdbscan configuration
mutation. -/

theorem find?_map_update {β : Type} (p : β → Bool) (f : β → β) (w : β)
    (hfw : ∀ x, p x = true → f x = w) (hw : p w = true)
    (hf : ∀ x, p x = false → f x = x) (d : List β) :
    (d.map f).find? p = if d.any p then some w else none := by
  induction d with
  | nil => rfl
  | cons x d ih =>
    rw [List.map_cons, List.find?_cons, List.any_cons]
    cases hx : p x with
    | true =>
      rw [hfw x hx, hw, Bool.true_or]
      rfl
    | false =>
      rw [hf x hx, hx, Bool.false_or]
      exact ih

theorem find?_map_invariant {β : Type} (p : β → Bool) (f : β → β)
    (hpf : ∀ x, p (f x) = p x) (hfix : ∀ x, p x = true → f x = x) (d : List β) :
    (d.map f).find? p = d.find? p := by
  induction d with
  | nil => rfl
  | cons x d ih =>
    rw [List.map_cons, List.find?_cons, List.find?_cons, hpf x]
    cases hx : p x with
    | true =>
      rw [hfix x hx]
    | false =>
      exact ih

theorem dictGet_dictSet_self (d : Config) (k : String) (v : Value) :
    dictGet (dictSet d k v) k = some v := by
  unfold dictGet dictSet
  by_cases hany : d.any (fun kv => kv.1 == k)
  · have hfw : ∀ x : String × Value, (x.1 == k) = true →
        (if x.1 == k then (k, v) else x) = (k, v) := by
      intro x hx
      rw [if_pos hx]
    have hf : ∀ x : String × Value, (x.1 == k) = false →
        (if x.1 == k then (k, v) else x) = x := by
      intro x hx
      rw [if_neg (by simp [hx])]
    rw [if_pos hany,
      find?_map_update (fun kv => kv.1 == k) _ (k, v) hfw (beq_self_eq_true k) hf d,
      if_pos hany]
    rfl
  · rw [if_neg hany, List.find?_append]
    have hnone : d.find? (fun kv => kv.1 == k) = none := by
      rw [List.find?_eq_none]
      intro x hx hpx
      exact hany (List.any_eq_true.mpr ⟨x, hx, hpx⟩)
    rw [hnone]
    simp

theorem dictGet_dictSet_ne (d : Config) (k k2 : String) (v : Value) (hne : ¬ k2 = k) :
    dictGet (dictSet d k v) k2 = dictGet d k2 := by
  have hkk2b : (k == k2) = false := beq_eq_false_iff_ne.mpr (fun h => hne h.symm)
  unfold dictGet dictSet
  by_cases hany : d.any (fun kv => kv.1 == k)
  · have hpf : ∀ x : String × Value,
        ((if x.1 == k then (k, v) else x).1 == k2) = (x.1 == k2) := by
      intro x
      by_cases hx : (x.1 == k) = true
      · rw [if_pos hx, hkk2b]
        have hx2 : (x.1 == k2) = false := by
          have hxk : x.1 = k := beq_iff_eq.mp hx
          exact beq_eq_false_iff_ne.mpr (fun h => hne (hxk ▸ h).symm)
        rw [hx2]
      · rw [if_neg hx]
    have hfix : ∀ x : String × Value, (x.1 == k2) = true →
        (if x.1 == k then (k, v) else x) = x := by
      intro x hx
      have hxk : (x.1 == k) = false := by
        have hx2 : x.1 = k2 := beq_iff_eq.mp hx
        exact beq_eq_false_iff_ne.mpr (fun h => hne (hx2 ▸ h.symm).symm)
      rw [if_neg (by simp [hxk])]
    rw [if_pos hany, find?_map_invariant (fun kv => kv.1 == k2) _ hpf hfix d]
  · rw [if_neg hany, List.find?_append]
    have hlast : (([(k, v)] : Config).find? (fun kv => kv.1 == k2)) = none := by
      rw [List.find?_cons_of_neg _ (by simp [hkk2b])]
      rfl
    rw [hlast]
    simp

/-- C9: the claim fails on the code.  The n_jobs = -1 override is indeed
always injected, but the caller-supplied dictionary is mutated in place: an
empty configuration observed after fitting is the singleton n_jobs mapping,
not the empty mapping that was supplied. -/
theorem hdbscan_config_mutation_counterexample :
    (hdbscan_clustering (fun _ _ => []) [] []).1 = [("n_jobs", Value.i (-1))] ∧
    [("n_jobs", Value.i (-1))] ≠ ([] : Config) := by
  constructor
  · rfl
  · intro h
    exact absurd h (by simp)

/-- C9 (amended): cluster fitting always requests full parallelism — after
the call the configuration maps n_jobs to -1, whatever was supplied, and the
fit runs on exactly that updated configuration — but the caller-supplied
mapping is mutated in place rather than left unmodified: the observed mapping
is the supplied one with n_jobs overwritten, all other keys unchanged. -/
theorem hdbscan_clustering_njobs (hdbscan_fit : Config → List (List ℚ) → List Int)
    (X : List (List ℚ)) (params : Config) :
    dictGet (hdbscan_clustering hdbscan_fit X params).1 "n_jobs" = some (Value.i (-1)) ∧
    (∀ k : String, ¬ k = "n_jobs" →
      dictGet (hdbscan_clustering hdbscan_fit X params).1 k = dictGet params k) ∧
    (hdbscan_clustering hdbscan_fit X params).1 = dictSet params "n_jobs" (Value.i (-1)) ∧
    (hdbscan_clustering hdbscan_fit X params).2 =
      hdbscan_fit (dictSet params "n_jobs" (Value.i (-1))) X := by
  refine ⟨dictGet_dictSet_self params "n_jobs" (Value.i (-1)), ?_, rfl, rfl⟩
  intro k hk
  exact dictGet_dictSet_ne params "n_jobs" k (Value.i (-1)) hk

/-- C9 (amended) witness: the override and frame property at a concrete
configuration carrying another key. -/
theorem hdbscan_clustering_njobs_witness :
    dictGet (hdbscan_clustering (fun _ _ => []) [] [("min_cluster_size", Value.i 2)]).1
        "n_jobs" = some (Value.i (-1)) ∧
    dictGet (hdbscan_clustering (fun _ _ => []) [] [("min_cluster_size", Value.i 2)]).1
        "min_cluster_size" = dictGet [("min_cluster_size", Value.i 2)] "min_cluster_size" := by
  have h := hdbscan_clustering_njobs (fun _ _ => []) [] [("min_cluster_size", Value.i 2)]
  exact ⟨h.1, h.2.1 "min_cluster_size" (by decide)⟩

/-! Helper lemmas about grid enumeration and the grid-search loop. -/

theorem sum_map_const_nat {β : Type} (l : List β) (n : Nat) :
    (l.map (fun _ => n)).sum = l.length * n := by
  induction l with
  | nil => simp
  | cons x l ih =>
    rw [List.map_cons, List.sum_cons, ih, List.length_cons]
    ring

theorem cartProd_length {V : Type} (ls : List (List V)) :
    (cartProd ls).length = (ls.map List.length).prod := by
  induction ls with
  | nil => rfl
  | cons vs ls ih =>
    show (vs.flatMap (fun v => (cartProd ls).map (fun c => v :: c))).length = _
    rw [List.length_flatMap, List.map_cons, List.prod_cons]
    have hconst : vs.map (List.length ∘ (fun v => (cartProd ls).map (fun c => v :: c))) =
        vs.map (fun _ => (cartProd ls).length) := by
      apply List.map_congr_left
      intro v _
      simp
    rw [hconst, sum_map_const_nat, ih]

theorem cartProd_mem {V : Type} (ls : List (List V)) (c : List V) :
    c ∈ cartProd ls ↔ List.Forall₂ (fun x xs => x ∈ xs) c ls := by
  induction ls generalizing c with
  | nil =>
    show c ∈ [[]] ↔ _
    rw [List.mem_singleton, List.forall₂_nil_right_iff]
  | cons vs ls ih =>
    show c ∈ vs.flatMap (fun v => (cartProd ls).map (fun t => v :: t)) ↔ _
    rw [List.mem_flatMap]
    constructor
    · rintro ⟨v, hv, hc⟩
      rw [List.mem_map] at hc
      obtain ⟨t, ht, rfl⟩ := hc
      exact List.Forall₂.cons hv ((ih t).mp ht)
    · intro hf
      cases hf with
      | cons hx hrest =>
        exact ⟨_, hx, List.mem_map.mpr ⟨_, (ih _).mpr hrest, rfl⟩⟩

theorem forall₂_zip_keys {V : Type} (grid : List (String × List V)) (combo : List V)
    (h : List.Forall₂ (fun v kvs => v ∈ kvs.2) combo grid) :
    List.Forall₂ (fun (kv : String × V) (kvs : String × List V) => kv.2 ∈ kvs.2)
      ((grid.map Prod.fst).zip combo) grid := by
  induction grid generalizing combo with
  | nil =>
    cases h
    exact List.Forall₂.nil
  | cons kvs grid ih =>
    cases h with
    | cons hv hrest =>
      exact List.Forall₂.cons hv (ih _ hrest)

/-- C7: grid expansion is exactly the Cartesian product, keys in supplied
order.  The four parts: (i) the number of enumerated configurations is the
product of the value-list lengths; (ii) every enumerated configuration
carries exactly the supplied keys in their supplied order, each paired with
a value drawn from that key's list; (iii) every such key/value combination
is enumerated; (iv) the grid nu in [v1, v2], gamma in [g] expands to exactly
the two full configurations, in order.  The enumeration is a pure function
of the grid, hence identical across runs. -/
theorem iterParam_cartesian :
    (∀ grid : List (String × List Value),
      (iterParam grid).length = (grid.map (fun kv => kv.2.length)).prod) ∧
    (∀ (grid : List (String × List Value)) (c : List (String × Value)),
      c ∈ iterParam grid →
        c.map Prod.fst = grid.map Prod.fst ∧
        List.Forall₂ (fun kv kvs => kv.2 ∈ kvs.2) c grid) ∧
    (∀ (grid : List (String × List Value)) (c : List (String × Value)),
      c.map Prod.fst = grid.map Prod.fst →
      List.Forall₂ (fun kv kvs => kv.2 ∈ kvs.2) c grid →
      c ∈ iterParam grid) ∧
    (∀ v1 v2 g : Value, iterParam [("nu", [v1, v2]), ("gamma", [g])] =
        [[("nu", v1), ("gamma", g)], [("nu", v2), ("gamma", g)]]) := by
  refine ⟨?_, ?_, ?_, ?_⟩
  · intro grid
    unfold iterParam
    rw [List.length_map, cartProd_length, List.map_map]
    rfl
  · intro grid c hc
    unfold iterParam at hc
    rw [List.mem_map] at hc
    obtain ⟨combo, hcombo, rfl⟩ := hc
    rw [cartProd_mem] at hcombo
    have hmem : List.Forall₂ (fun v kvs => v ∈ kvs.2) combo grid := by
      rw [List.forall₂_map_right_iff] at hcombo
      exact hcombo
    have hlen : combo.length = grid.length := by
      have := hcombo.length_eq
      rwa [List.length_map] at this
    constructor
    · rw [List.map_fst_zip]
      rw [List.length_map, hlen]
    · exact forall₂_zip_keys grid combo hmem
  · intro grid c hkeys hf
    unfold iterParam
    rw [List.mem_map]
    refine ⟨c.map Prod.snd, ?_, ?_⟩
    · rw [cartProd_mem, List.forall₂_map_right_iff]
      rw [List.forall₂_map_left_iff]
      exact hf
    · rw [← hkeys, List.zip_map']
      simp
  · intro v1 v2 g
    rfl

/-- C7 witness: the enumeration facts applied to a concrete one-element
combination of a two-key grid. -/
theorem iterParam_cartesian_witness :
    ([("nu", Value.s "a"), ("gamma", Value.s "scale")].map Prod.fst =
      [("nu", [Value.s "a"]), ("gamma", [Value.s "scale"])].map Prod.fst) ∧
    List.Forall₂ (fun (kv : String × Value) kvs => kv.2 ∈ kvs.2)
      [("nu", Value.s "a"), ("gamma", Value.s "scale")]
      [("nu", [Value.s "a"]), ("gamma", [Value.s "scale"])] :=
  (iterParam_cartesian).2.1 [("nu", [Value.s "a"]), ("gamma", [Value.s "scale"])]
    [("nu", Value.s "a"), ("gamma", Value.s "scale")] (by decide)

theorem foldlM_grid_error (eval_fn : Config → Except String ℚ) (c : Config)
    (post : List Config) (e : String) (he : eval_fn c = Except.error e) :
    ∀ (pre : List Config) (init : ℚ × Option Config),
      (∀ q ∈ pre, ∃ f, eval_fn q = Except.ok f) →
      ((pre ++ c :: post).foldlM
        (fun best p => (eval_fn p).map (fun f1 => if f1 > best.1 then (f1, some p) else best))
        init) = Except.error e := by
  intro pre
  induction pre with
  | nil =>
    intro init _
    simp only [List.nil_append, List.foldlM_cons, he]
    rfl
  | cons q pre ih =>
    intro init h
    obtain ⟨f, hf⟩ := h q (List.mem_cons_self q pre)
    simp only [List.cons_append, List.foldlM_cons, hf]
    exact ih _ (fun r hr => h r (List.mem_cons_of_mem q hr))

/-- C4: the claim fails on the code.  With a two-configuration grid whose
first configuration's model fit raises, the whole grid search aborts with
that exception: the second configuration, which would have evaluated
successfully, is never reflected in any returned record, and no record set
is produced at all. -/
theorem grid_search_failure_counterexample :
    grid_search
      (fun p => if p = [("nu", Value.s "a")] then Except.error "ModelFitError"
                else Except.ok 1)
      [("nu", [Value.s "a", Value.s "b"])] = Except.error "ModelFitError" ∧
    (fun p => if p = [("nu", Value.s "a")] then Except.error "ModelFitError"
              else Except.ok 1) [("nu", Value.s "b")] = Except.ok 1 := by
  constructor
  · rfl
  · rfl

/-- C4 (amended): a per-cell fit failure aborts the remaining enumeration:
whenever the enumerated configurations split as pre ++ c :: post with every
configuration before c evaluating successfully and c's fit raising, the grid
search propagates the exception and returns no best parameters and no record
set; later configurations are never attempted. -/
theorem grid_search_aborts_on_failure (eval_fn : Config → Except String ℚ)
    (param_grid : List (String × List Value)) (pre post : List Config) (c : Config)
    (e : String) (hne : param_grid ≠ [])
    (hsplit : iterParam param_grid = pre ++ c :: post)
    (hok : ∀ q ∈ pre, ∃ f, eval_fn q = Except.ok f)
    (he : eval_fn c = Except.error e) :
    grid_search eval_fn param_grid = Except.error e := by
  unfold grid_search
  rw [if_neg (fun hh => hne (List.isEmpty_iff.mp hh))]
  rw [hsplit]
  unfold run_grid
  rw [foldlM_grid_error eval_fn c post e he pre ((0 : ℚ), none) hok]
  rfl

/-- C4 (amended) witness: the abort at a concrete grid where the first cell
succeeds and the second fails. -/
theorem grid_search_aborts_on_failure_witness :
    grid_search
      (fun p => if p = [("nu", Value.s "b")] then Except.error "ModelFitError"
                else Except.ok 1)
      [("nu", [Value.s "a", Value.s "b"])] = Except.error "ModelFitError" := by
  apply grid_search_aborts_on_failure _ [("nu", [Value.s "a", Value.s "b"])]
    [[("nu", Value.s "a")]] [] [("nu", Value.s "b")]
    "ModelFitError" (by simp) (by rfl)
  · intro q hq
    rw [List.mem_singleton] at hq
    subst hq
    exact ⟨1, rfl⟩
  · rfl

theorem foldlM_grid_pure (eval_fn : Config → Except String ℚ) (score : Config → ℚ) :
    ∀ (l : List Config) (init : ℚ × Option Config),
      (∀ q ∈ l, eval_fn q = Except.ok (score q)) →
      (l.foldlM
        (fun best p => (eval_fn p).map (fun f1 => if f1 > best.1 then (f1, some p) else best))
        init) =
      Except.ok (l.foldl
        (fun best p => if score p > best.1 then (score p, some p) else best) init) := by
  intro l
  induction l with
  | nil =>
    intro init _
    rfl
  | cons q l ih =>
    intro init h
    simp only [List.foldlM_cons, List.foldl_cons, h q (List.mem_cons_self q l)]
    exact ih _ (fun r hr => h r (List.mem_cons_of_mem q hr))

theorem foldl_best_le (score : Config → ℚ) (l : List Config) :
    ∀ (s : ℚ) (b : Option Config), (∀ q ∈ l, score q ≤ s) →
      (l.foldl (fun best p => if score p > best.1 then (score p, some p) else best) (s, b)) =
        (s, b) := by
  induction l with
  | nil =>
    intro s b _
    rfl
  | cons q l ih =>
    intro s b h
    rw [List.foldl_cons, if_neg (not_lt.mpr (h q (List.mem_cons_self q l)))]
    exact ih s b (fun r hr => h r (List.mem_cons_of_mem q hr))

theorem foldl_best_lt (score : Config → ℚ) (l : List Config) (f : ℚ) :
    ∀ (s : ℚ) (b : Option Config), s < f → (∀ q ∈ l, score q < f) →
      (l.foldl (fun best p => if score p > best.1 then (score p, some p) else best) (s, b)).1
        < f := by
  induction l with
  | nil =>
    intro s b hs _
    exact hs
  | cons q l ih =>
    intro s b hs h
    rw [List.foldl_cons]
    by_cases hq : score q > s
    · rw [if_pos hq]
      exact ih (score q) (some q) (h q (List.mem_cons_self q l))
        (fun r hr => h r (List.mem_cons_of_mem q hr))
    · rw [if_neg hq]
      exact ih s b hs (fun r hr => h r (List.mem_cons_of_mem q hr))

/-- C5: best-combination selection replaces the running best (initialised to
F1 = 0, parameters = None) only on a strictly greater F1, so when the
enumeration splits as pre ++ c :: post with every earlier configuration
scoring strictly below c and every later one scoring no higher — in
particular any later exact tie — the first maximal configuration c is the
one returned. -/
theorem grid_search_best_first (eval_fn : Config → Except String ℚ) (score : Config → ℚ)
    (param_grid : List (String × List Value)) (pre post : List Config) (c : Config)
    (hne : param_grid ≠ [])
    (heval : ∀ q ∈ iterParam param_grid, eval_fn q = Except.ok (score q))
    (hsplit : iterParam param_grid = pre ++ c :: post)
    (hpre : ∀ q ∈ pre, score q < score c)
    (hpost : ∀ q ∈ post, score q ≤ score c)
    (hpos : 0 < score c) :
    grid_search eval_fn param_grid = Except.ok (some c) := by
  unfold grid_search
  rw [if_neg (fun hh => hne (List.isEmpty_iff.mp hh))]
  rw [hsplit] at heval ⊢
  unfold run_grid
  rw [foldlM_grid_pure eval_fn score _ _ heval]
  have hfold : ((pre ++ c :: post).foldl
      (fun best p => if score p > best.1 then (score p, some p) else best) ((0 : ℚ), none)) =
      (score c, some c) := by
    rw [List.foldl_append, List.foldl_cons]
    have h1 : ((pre.foldl
        (fun best p => if score p > best.1 then (score p, some p) else best)
        ((0 : ℚ), none)).1) < score c :=
      foldl_best_lt score pre (score c) 0 none hpos hpre
    rw [if_pos h1]
    exact foldl_best_le score post (score c) (some c) hpost
  rw [hfold]
  rfl

/-- C5 witness: two configurations tie with F1 = 1; the first enumerated,
nu = "a", is returned. -/
theorem grid_search_best_first_witness :
    grid_search (fun _ => Except.ok 1) [("nu", [Value.s "a", Value.s "b"])] =
      Except.ok (some [("nu", Value.s "a")]) := by
  apply grid_search_best_first (fun _ => Except.ok 1) (fun _ => (1 : ℚ))
    [("nu", [Value.s "a", Value.s "b"])]
    [] [[("nu", Value.s "b")]] [("nu", Value.s "a")] (by simp)
    (fun q _ => rfl) (by rfl)
  · intro q hq
    exact absurd hq (List.not_mem_nil q)
  · intro q _
    exact le_refl 1
  · exact zero_lt_one

/-- C10: with the running best F1 initialised to 0 and replacement only on a
strictly greater score, a grid in which no configuration scores above 0
returns None as the best parameters; and a grid that evaluates nothing (an
empty value list) also returns None, so the two situations are
indistinguishable by the returned value. -/
theorem grid_search_all_zero_none :
    (∀ (eval_fn : Config → Except String ℚ) (score : Config → ℚ)
        (param_grid : List (String × List Value)), param_grid ≠ [] →
      (∀ q ∈ iterParam param_grid, eval_fn q = Except.ok (score q) ∧ score q ≤ 0) →
      grid_search eval_fn param_grid = Except.ok none) ∧
    (∀ eval_fn : Config → Except String ℚ,
      grid_search eval_fn [("nu", [])] = Except.ok none) := by
  constructor
  · intro eval_fn score param_grid hne h
    unfold grid_search
    rw [if_neg (fun hh => hne (List.isEmpty_iff.mp hh))]
    unfold run_grid
    rw [foldlM_grid_pure eval_fn score _ _ (fun q hq => (h q hq).1)]
    rw [foldl_best_le score _ 0 none (fun q hq => (h q hq).2)]
    rfl
  · intro eval_fn
    rfl

/-- C10 witness: a two-configuration grid whose cells all score exactly 0
yields Except.ok none as the best parameters. -/
theorem grid_search_all_zero_none_witness :
    grid_search (fun _ => Except.ok 0) [("nu", [Value.s "a", Value.s "b"])] =
      Except.ok none :=
  (grid_search_all_zero_none).1 (fun _ => Except.ok 0) (fun _ => (0 : ℚ))
    [("nu", [Value.s "a", Value.s "b"])] (by simp) (fun q _ => ⟨rfl, le_refl 0⟩)

/-! Helper lemmas about confusion counts over binary label vectors. -/

theorem length_filter_zip_fst {α β : Type} (p : α → Bool) :
    ∀ (A : List α) (B : List β), A.length = B.length →
      ((A.zip B).filter (fun q => p q.1)).length = (A.filter p).length := by
  intro A
  induction A with
  | nil =>
    intro B _
    rfl
  | cons a A ih =>
    intro B hlen
    cases B with
    | nil => exact absurd hlen (by simp)
    | cons b B =>
      have hlen2 : A.length = B.length := by
        simpa using hlen
      by_cases hpa : p a = true
      · simp [List.zip_cons_cons, List.filter_cons, hpa, ih B hlen2]
      · have hpa2 : p a = false := by
          simpa using hpa
        simp [List.zip_cons_cons, List.filter_cons, hpa2, ih B hlen2]

theorem length_filter_split {γ : Type} (p q : γ → Bool) (l : List γ) :
    (l.filter (fun x => p x && q x)).length + (l.filter (fun x => p x && !q x)).length =
      (l.filter p).length := by
  induction l with
  | nil => rfl
  | cons x l ih =>
    by_cases hp : p x = true
    · by_cases hq : q x = true
      · simp only [List.filter_cons, hp, hq]
        simp
        omega
      · have hq2 : q x = false := by simpa using hq
        simp only [List.filter_cons, hp, hq2]
        simp
        omega
    · have hp2 : p x = false := by simpa using hp
      simp only [List.filter_cons, hp2]
      simp
      exact ih

theorem f1_score_eq_zero_of_no_tp (y_true y_pred : List Nat)
    (h : pairCount y_true y_pred 1 1 = 0) : f1_score y_true y_pred = 0 := by
  unfold f1_score
  rw [h]
  simp

theorem confusion_ravel_binary (y_test preds : List Nat) (TN FP FN TP : Nat)
    (hy : ∀ l ∈ y_test, l ≤ 1) (hp : ∀ l ∈ preds, l ≤ 1)
    (h : confusion_ravel y_test preds = some (TN, FP, FN, TP)) :
    y_test.length = preds.length ∧
    TN = pairCount y_test preds 0 0 ∧ FP = pairCount y_test preds 0 1 ∧
    FN = pairCount y_test preds 1 0 ∧ TP = pairCount y_test preds 1 1 := by
  unfold confusion_ravel at h
  split at h
  · next hlen =>
    refine ⟨hlen, ?_⟩
    cases hd : (y_test ++ preds).dedup with
    | nil =>
      rw [hd] at h
      simp at h
    | cons x t =>
      cases t with
      | nil =>
        rw [hd] at h
        simp at h
      | cons y2 t2 =>
        cases t2 with
        | cons z t3 =>
          rw [hd] at h
          simp at h
        | nil =>
          rw [hd] at h
          have hxy : ¬ x = y2 := by
            have hnd := List.nodup_dedup (y_test ++ preds)
            rw [hd] at hnd
            intro hxe
            exact (List.nodup_cons.mp hnd).1 (hxe ▸ List.mem_singleton.mpr rfl)
          have hx1 : x ≤ 1 := by
            have hmem : x ∈ y_test ++ preds := List.mem_dedup.mp (hd ▸ List.mem_cons_self x _)
            rcases List.mem_append.mp hmem with hm | hm
            · exact hy x hm
            · exact hp x hm
          have hy1 : y2 ≤ 1 := by
            have hmem : y2 ∈ y_test ++ preds := List.mem_dedup.mp
              (hd ▸ List.mem_cons_of_mem x (List.mem_cons_self y2 _))
            rcases List.mem_append.mp hmem with hm | hm
            · exact hy y2 hm
            · exact hp y2 hm
          have hab : min x y2 = 0 ∧ max x y2 = 1 := by
            rcases Nat.le_one_iff_eq_zero_or_eq_one.mp hx1 with hx0 | hx0 <;>
              rcases Nat.le_one_iff_eq_zero_or_eq_one.mp hy1 with hy0 | hy0 <;>
                subst hx0 <;> subst hy0 <;> simp_all
          simp only [Option.some.injEq, Prod.mk.injEq] at h
          rw [← h.1, ← h.2.1, ← h.2.2.1, ← h.2.2.2, hab.1, hab.2]
          exact ⟨rfl, rfl, rfl, rfl⟩
  · exact absurd h (by simp)

/-- C2: the claim fails on the code in both directions.  A test set and
prediction vector containing only the label 0 (a zero-denominator case for
precision and the positive-class rates) makes the four-way confusion-matrix
unpacking raise ValueError, aborting the analysis; and when no positive is
predicted against a mixed test set, sklearn's precision is silently coerced
to 0, not reported as an undefined value. -/
theorem metrics_zero_denominator_counterexample :
    evaluate_predictions [0, 0] [0, 0] = none ∧
    (evaluate_predictions [1, 0] [0, 0]).map (fun m => m.precisionScore) = some 0 ∧
    (([0, 0] : List Nat).filter (fun l => l == 1)).length = 0 := by
  exact ⟨rfl, rfl, rfl⟩

/-- C2 (amended): in a completed boundary evaluation over binary labels, a
zero-denominator numpy rate evaluates to NaN (an undefined value, no
exception): with no actual positives the TPR and FNR are NaN, and with no
actual negatives the FPR and TNR are NaN; but the sklearn scores are silently
coerced: recall and F1 become 0 when there is no actual positive, and
precision becomes 0 when no positive is predicted — the record does not
distinguish these from true zero scores.  (When the two inputs together carry
only one distinct label, the evaluation instead aborts on the
confusion-matrix unpacking.) -/
theorem evaluate_zero_denominators (y_test preds : List Nat) (m : EvalMetrics)
    (hy : ∀ l ∈ y_test, l ≤ 1) (hp : ∀ l ∈ preds, l ≤ 1)
    (h : evaluate_predictions y_test preds = some m) :
    ((y_test.filter (fun l => l == 1)).length = 0 →
      m.recallScore = 0 ∧ m.f1 = 0 ∧ m.tpr = none ∧ m.fnr = none) ∧
    ((y_test.filter (fun l => l == 0)).length = 0 →
      m.fpr = none ∧ m.tnr = none) ∧
    ((preds.filter (fun l => l == 1)).length = 0 → m.precisionScore = 0) := by
  unfold evaluate_predictions at h
  cases hcr : confusion_ravel y_test preds with
  | none =>
    rw [hcr] at h
    simp at h
  | some quad =>
    rw [hcr] at h
    obtain ⟨TN, FP, FN, TP⟩ := quad
    injection h with h
    subst h
    obtain ⟨hlen, hTN, hFP, hFN, hTP⟩ := confusion_ravel_binary y_test preds TN FP FN TP hy hp hcr
    refine ⟨?_, ?_, ?_⟩
    · intro h0
      have hcongr : (y_test.zip preds).filter (fun q => q.1 == 1 && q.2 == 0) =
          (y_test.zip preds).filter (fun q => q.1 == 1 && !(q.2 == 1)) := by
        apply List.filter_congr
        rintro ⟨u, w⟩ hq
        have hw : w ∈ preds := (List.of_mem_zip hq).2
        rcases Nat.le_one_iff_eq_zero_or_eq_one.mp (hp w hw) with hw0 | hw0 <;>
          subst hw0 <;> rfl
      have hsum : TP + FN = (y_test.filter (fun l => l == 1)).length := by
        rw [hTP, hFN]
        unfold pairCount
        rw [hcongr, length_filter_split (fun q => q.1 == 1) (fun q => q.2 == 1)
          (y_test.zip preds)]
        exact length_filter_zip_fst (fun l => l == 1) y_test preds hlen
      rw [h0] at hsum
      have hTP0 : TP = 0 := by omega
      have hFN0 : FN = 0 := by omega
      refine ⟨?_, ?_, ?_, ?_⟩
      · show recall_score y_test preds = 0
        unfold recall_score
        rw [h0]
        rfl
      · exact f1_score_eq_zero_of_no_tp y_test preds (hTP ▸ hTP0)
      · show (npDiv TP (TP + FN)).map (fun r => r * 100) = none
        rw [hTP0, hFN0]
        rfl
      · show (npDiv FN (FN + TP)).map (fun r => r * 100) = none
        rw [hTP0, hFN0]
        rfl
    · intro h0
      have hcongr0 : (y_test.zip preds).filter (fun q => q.1 == 0 && q.2 == 0) =
          (y_test.zip preds).filter (fun q => q.1 == 0 && !(q.2 == 1)) := by
        apply List.filter_congr
        rintro ⟨u, w⟩ hq
        have hw : w ∈ preds := (List.of_mem_zip hq).2
        rcases Nat.le_one_iff_eq_zero_or_eq_one.mp (hp w hw) with hw0 | hw0 <;>
          subst hw0 <;> rfl
      have hsum0 : FP + TN = (y_test.filter (fun l => l == 0)).length := by
        rw [hFP, hTN]
        unfold pairCount
        rw [hcongr0, length_filter_split (fun q => q.1 == 0) (fun q => q.2 == 1)
          (y_test.zip preds)]
        exact length_filter_zip_fst (fun l => l == 0) y_test preds hlen
      rw [h0] at hsum0
      have hFP0 : FP = 0 := by omega
      have hTN0 : TN = 0 := by omega
      constructor
      · show (npDiv FP (FP + TN)).map (fun r => r * 100) = none
        rw [hFP0, hTN0]
        rfl
      · show (npDiv TN (TN + FP)).map (fun r => r * 100) = none
        rw [hFP0, hTN0]
        rfl
    · intro h0
      show precision_score y_test preds = 0
      unfold precision_score
      rw [h0]
      rfl

/-- C2 (amended) witness: with y_test = [0, 0] and predictions = [1, 0] there
is no actual positive, so recall and F1 are coerced to 0 while the TPR and
FNR rates are NaN; with y_test = [1, 1] and predictions = [0, 1] there is no
actual negative, so the FPR and TNR rates are NaN. -/
theorem evaluate_zero_denominators_witness :
    ((([0, 0] : List Nat).filter (fun l => l == 1)).length = 0 ∧
      recall_score [0, 0] [1, 0] = 0 ∧ f1_score [0, 0] [1, 0] = 0 ∧
      (npDiv 0 (0 + 0)).map (fun r : ℚ => r * 100) = none) ∧
    ((([1, 1] : List Nat).filter (fun l => l == 0)).length = 0 ∧
      (npDiv 0 (0 + 0)).map (fun r : ℚ => r * 100) = none) := by
  have h1 := evaluate_zero_denominators [0, 0] [1, 0]
    ⟨(npDiv 0 (0 + 0)).map (fun r => r * 100), (npDiv 1 (1 + 1)).map (fun r => r * 100),
     (npDiv 1 (1 + 1)).map (fun r => r * 100), (npDiv 0 (0 + 0)).map (fun r => r * 100),
     precision_score [0, 0] [1, 0], recall_score [0, 0] [1, 0], f1_score [0, 0] [1, 0]⟩
    (by decide) (by decide) rfl
  have h2 := evaluate_zero_denominators [1, 1] [0, 1]
    ⟨(npDiv 1 (1 + 1)).map (fun r => r * 100), (npDiv 0 (0 + 0)).map (fun r => r * 100),
     (npDiv 0 (0 + 0)).map (fun r => r * 100), (npDiv 1 (1 + 1)).map (fun r => r * 100),
     precision_score [1, 1] [0, 1], recall_score [1, 1] [0, 1], f1_score [1, 1] [0, 1]⟩
    (by decide) (by decide) rfl
  have hc1 := h1.1 (by decide)
  have hc2 := h2.2.1 (by decide)
  exact ⟨⟨by decide, hc1.1, hc1.2.1, hc1.2.2.1⟩, ⟨by decide, hc2.1⟩⟩

/-- C6: feature scaling is fit on X_train and reused on X_test.  Part one:
the scaled test set is computed row-by-row with parameters independent of the
rest of the test set (scaling a concatenation is the concatenation of the
scalings — impossible if the scaler were refit on the test data).  Part two:
reusing the train-fitted parameters is observably different from refitting on
the test set.  Part three: train_oneclass_svm scores exactly the test set
scaled with the parameters fitted on X_train. -/
theorem train_oneclass_svm_scaling :
    (∀ (sqrt : ℚ → ℚ) (X_train A B : List (List ℚ)),
      ocsvm_X_test_scaled sqrt X_train (A ++ B) =
        ocsvm_X_test_scaled sqrt X_train A ++ ocsvm_X_test_scaled sqrt X_train B) ∧
    (∃ (sqrt : ℚ → ℚ) (X_train X_test : List (List ℚ)),
      ocsvm_X_test_scaled sqrt X_train X_test ≠
        scaler_transform (scaler_fit sqrt X_test) X_test) ∧
    (∀ (sqrt : ℚ → ℚ) (svm : Config → List (List ℚ) → List (List ℚ) → List Int)
        (y_test : List Nat) (X_train X_test : List (List ℚ)) (params : Config),
      train_oneclass_svm sqrt svm y_test X_train X_test params =
        evaluate_predictions y_test
          ((svm params (scaler_transform (scaler_fit sqrt X_train) X_train)
            (ocsvm_X_test_scaled sqrt X_train X_test)).map
            (fun v => if v == -1 then 1 else 0))) := by
  refine ⟨?_, ?_, ?_⟩
  · intro sqrt X_train A B
    unfold ocsvm_X_test_scaled scaler_transform
    rw [List.map_append]
  · refine ⟨id, [[0], [2]], [[4]], ?_⟩
    have hm1 : qmean [0, 2] = 1 := by
      unfold qmean
      norm_num
    have hv1 : qvariance [0, 2] = 1 := by
      unfold qvariance
      rw [hm1]
      norm_num
    have hm2 : qmean [4] = 4 := by
      unfold qmean
      norm_num
    have hv2 : qvariance [4] = 0 := by
      unfold qvariance
      rw [hm2]
      norm_num
    have hc1 : matColumns [[0], [2]] = [[0, 2]] := rfl
    have hc2 : matColumns [[4]] = [[4]] := rfl
    have hfit1 : scaler_fit id [[0], [2]] = [(1, 1)] := by
      unfold scaler_fit
      rw [hc1]
      simp [hm1, hv1, handleZeros]
    have hfit2 : scaler_fit id [[4]] = [(4, 1)] := by
      unfold scaler_fit
      rw [hc2]
      simp [hm2, hv2, handleZeros]
    unfold ocsvm_X_test_scaled
    rw [hfit1, hfit2]
    unfold scaler_transform
    norm_num
  · intro sqrt svm y_test X_train X_test params
    rfl

/-- C6 witness: the test-scaling concatenation law at concrete matrices. -/
theorem train_oneclass_svm_scaling_witness :
    ocsvm_X_test_scaled id [[0], [2]] ([[4]] ++ [[6]]) =
      ocsvm_X_test_scaled id [[0], [2]] [[4]] ++ ocsvm_X_test_scaled id [[0], [2]] [[6]] :=
  (train_oneclass_svm_scaling).1 id [[0], [2]] [[4]] [[6]]

end FraudEval
